import Mathlib

/-!
Verification of the statement-indexing and reveal-selection logic of the
`BbsBlsSignatureProof2020` linked-data proof suite.

Strings are modelled as `List Char`; the canonicalization, framing, document
loading and BBS+ primitives are external collaborators and are modelled as
fields of an `Env` structure.  JSON-LD objects are modelled as association
lists of key/value pairs.
-/

set_option autoImplicit false

/-- Convert a string literal to the character-list representation used throughout. -/

def strL (s : String) : List Char := s.toList

/-- `true` when a character is not the space separator used by `split(" ")`. -/

def notSpace (c : Char) : Bool := c != ' '

/-- First space-delimited token of a line, as in JavaScript `element.split(" ")[0]`. -/

def firstTok (s : List Char) : List Char := s.takeWhile notSpace

/-- The remainder of a line after its first space-delimited token. -/

def restTok (s : List Char) : List Char := s.dropWhile notSpace


/-- JavaScript `s.replace(pat, repl)` with a plain-string pattern: replace the
first occurrence of `pat`, or return the string unchanged when absent. -/

def replaceFirst (pat repl : List Char) : List Char → List Char
  | [] => if pat.isPrefixOf ([] : List Char) then repl else []
  | c :: cs =>
    if pat.isPrefixOf (c :: cs) then repl ++ (c :: cs).drop pat.length
    else c :: replaceFirst pat repl cs

/-- The prefix of canonical blank-node labels, `_:c14n`. -/

def bnMark : List Char := strL "_:c14n"

/-- The wrapper namespace opener, `<urn:bnid:`. -/

def urnOpen : List Char := strL "<urn:bnid:"

/-- The wrapped blank-node subject marker, `<urn:bnid:_:c14n`. -/

def urnMark : List Char := strL "<urn:bnid:_:c14n"

/-- Derive-path blank node stabilization (`BbsBlsSignatureProof2020.deriveProof`,
lines 87–98): when the subject token of a statement starts with `_:c14n`, wrap
it as `<urn:bnid:_:c14n...>`. -/

def transformStatement (element : List Char) : List Char :=
  if bnMark.isPrefixOf (firstTok element) then
    replaceFirst (firstTok element) (urnOpen ++ firstTok element ++ ['>']) element
  else element

/-- Verify-path inverse transform (`BbsBlsSignatureProof2020.verifyProof`,
lines 205–217): when the subject token starts with `<urn:bnid:_:c14n`, strip the
`<urn:bnid:` opener and the trailing `>`. -/

def untransformStatement (element : List Char) : List Char :=
  if urnMark.isPrefixOf (firstTok element) then
    replaceFirst (firstTok element) (((firstTok element).drop urnOpen.length).dropLast)
      element
  else element


/-- A JSON value as manipulated by the suite: strings, integers, integer arrays
(reveal index lists) and nested objects. -/

inductive JVal where
  | str : List Char → JVal
  | num : Int → JVal
  | arr : List Int → JVal
  | obj : List (List Char × JVal) → JVal

/-- A JSON object: an ordered association list of fields. -/

abbrev JObj := List (List Char × JVal)

/-- First-match field lookup. -/

def lookupKey (k : List Char) : JObj → Option JVal
  | [] => none
  | kv :: rest => if kv.1 = k then some kv.2 else lookupKey k rest

/-- JavaScript `delete o[k]`. -/

def deleteKey (k : List Char) (o : JObj) : JObj :=
  o.filter (fun kv => !(kv.1 = k : Bool))

/-- JavaScript property assignment `o[k] = v` (object-literal override): the
value is updated in place when the key exists, appended otherwise. -/

def setKey (k : List Char) (v : JVal) (o : JObj) : JObj :=
  if o.any (fun kv => kv.1 = k) then
    o.map (fun kv => if kv.1 = k then (k, v) else kv)
  else o ++ [(k, v)]

def getStr (k : List Char) (o : JObj) : Option (List Char) :=
  match lookupKey k o with
  | some (JVal.str s) => some s
  | _ => none

def getArr (k : List Char) (o : JObj) : Option (List Int) :=
  match lookupKey k o with
  | some (JVal.arr a) => some a
  | _ => none

def getNum (k : List Char) (o : JObj) : Option Int :=
  match lookupKey k o with
  | some (JVal.num n) => some n
  | _ => none

def getObjField (k : List Char) (o : JObj) : Option JObj :=
  match lookupKey k o with
  | some (JVal.obj p) => some p
  | _ => none

instance : Inhabited JVal := ⟨JVal.str []⟩

def typeK : List Char := strL "type"

def signatureK : List Char := strL "signature"

def proofK : List Char := strL "proof"

def revealK : List Char := strL "revealStatements"

def totalK : List Char := strL "totalStatements"

def nonceK : List Char := strL "nonce"

def vmK : List Char := strL "verificationMethod"

def idK : List Char := strL "id"

def revokedK : List Char := strL "revoked"

def sigSuiteType : List Char := strL "BbsBlsSignature2020"

def proofSuiteType : List Char := strL "BbsBlsSignatureProof2020"

/-- Error taxonomy of §7 as surfaced by the suite. -/

inductive Err where
  | typeMismatch
  | decodeError
  | reconciliation
  | missingVerificationMethod
  | verificationMethodNotFound
  | revoked
  | purposeInvalid

deriving DecidableEq

/-- Request to the external `blsCreateProof` primitive. -/

structure BlsCreateProofRequest where
  signature : List Nat
  publicKey : List Nat
  messages : List (List Char)
  nonce : List Char
  revealed : List Int

deriving DecidableEq

/-- The `{ verified, error? }` result envelope. -/

structure VerifyProofResult where
  verified : Bool
  error : Option Err

deriving DecidableEq

/-- Request to the external `blsVerifyProof` primitive; absent fields model
JavaScript `undefined` being passed through. -/

structure BlsVerifyProofRequest where
  proof : List Nat
  publicKey : List Nat
  messageCount : Option Int
  messages : List (List Char)
  nonce : Option (List Char)
  revealed : Option (List Int)

deriving DecidableEq

/-- Result of the pluggable proof-purpose validator. -/

structure PurposeResult where
  valid : Bool
  error : Err

deriving DecidableEq

/-- The pluggable purpose validator, applied to (proof, document, verificationMethod). -/

abbrev Purpose := JObj → JObj → JObj → PurposeResult

/-- The external collaborators of §6: canonicalization (with its `skipExpansion`
option), RDF round-tripping, framing, verification-method resolution, the BBS+
primitives, randomness and base64 codecs. -/

structure Env where
  canonize : JObj → Option Bool → List Char
  fromRDF : List Char → JObj
  frame : JObj → JObj → JObj
  frameVerificationMethod : List Char → Option JObj
  blsCreateProof : BlsCreateProofRequest → List Nat
  blsVerifyProof : BlsVerifyProofRequest → VerifyProofResult
  randomBytes : Nat → List Nat
  base64encode : List Nat → List Char
  base64decode : List Char → List Nat

/-- `canonize(...).split("\n").filter(l => l.length > 0)`. -/

def splitFilter (s : List Char) : List (List Char) :=
  (s.splitOn '\n').filter (fun l => decide (0 < l.length))

/-- JavaScript `lines.join("\n")`. -/

def joinNL : List (List Char) → List Char
  | [] => []
  | [x] => x
  | x :: xs => x ++ '\n' :: joinNL xs

/-- Modelled from the spec: `BbsBlsSignature2020.createVerifyDocumentData` — the
file `BbsBlsSignature2020.ts` is not under `src/`.  Per §4.3 step 3 and §6 it
canonicalizes the document into newline-separated statements, filtering empty
lines. -/

def baseCreateVerifyDocumentData (env : Env) (document : JObj) : List (List Char) :=
  splitFilter (env.canonize document none)

/-- Modelled from the spec: `BbsBlsSignature2020.createVerifyProofData` — the
file `BbsBlsSignature2020.ts` is not under `src/`.  Per §4.3 step 3 it
canonicalizes the proof metadata excluding the signature field. -/

def baseCreateVerifyProofData (env : Env) (proofIn : JObj) : List (List Char) :=
  splitFilter (env.canonize (deleteKey signatureK proofIn) none)

def documentStatements (env : Env) (document : JObj) : List (List Char) :=
  baseCreateVerifyDocumentData env document

def proofStatements (env : Env) (proofIn : JObj) : List (List Char) :=
  baseCreateVerifyProofData env proofIn

def numberOfProofStatements (env : Env) (proofIn : JObj) : Nat :=
  (proofStatements env proofIn).length

def transformedInputDocumentStatements (env : Env) (document : JObj) :
    List (List Char) :=
  (documentStatements env document).map transformStatement

def revealDocumentResult (env : Env) (document revealDocument : JObj) : JObj :=
  env.frame (env.fromRDF (joinNL (transformedInputDocumentStatements env document)))
    revealDocument

def revealDocumentStatements (env : Env) (document revealDocument : JObj) :
    List (List Char) :=
  baseCreateVerifyDocumentData env (revealDocumentResult env document revealDocument)

/-- JavaScript `Array.prototype.indexOf`: first index of `key`, `-1` if absent. -/

def jsIndexOf (l : List (List Char)) (key : List Char) : Int :=
  match l with
  | [] => -1
  | x :: xs =>
    if x = key then 0
    else if jsIndexOf xs key = -1 then -1 else jsIndexOf xs key + 1

def documentRevealIndicies (env : Env) (document proofIn revealDocument : JObj) :
    List Int :=
  (revealDocumentStatements env document revealDocument).map
    (fun key => jsIndexOf (transformedInputDocumentStatements env document) key
      + (numberOfProofStatements env proofIn : Int))

def revealIndicies (env : Env) (document proofIn revealDocument : JObj) : List Int :=
  (List.range (numberOfProofStatements env proofIn)).map Int.ofNat
    ++ documentRevealIndicies env document proofIn revealDocument

/-- Lines 147–150: `if (!nonce) nonce = Buffer.from(randomBytes(50)).toString("base64")`.
The absence test is JavaScript truthiness, so an empty string is also replaced. -/

def resolvedNonce (env : Env) (nonceIn : Option (List Char)) : List Char :=
  match nonceIn with
  | some s => if s.isEmpty then env.base64encode (env.randomBytes 50) else s
  | none => env.base64encode (env.randomBytes 50)

def allInputStatements (env : Env) (document proofIn : JObj) : List (List Char) :=
  proofStatements env proofIn ++ documentStatements env document

def outputProofBytes (env : Env) (publicKey : List Nat)
    (document proofIn revealDocument : JObj) (nonceIn : Option (List Char))
    (sigB64 : List Char) : List Nat :=
  env.blsCreateProof
    { signature := env.base64decode sigB64
      publicKey := publicKey
      messages := allInputStatements env document proofIn
      nonce := resolvedNonce env nonceIn
      revealed := revealIndicies env document proofIn revealDocument }

/-- The derived proof object of lines 169–179: issuer fields minus
signature/type, new type tag, output proof, reveal indices, total count, nonce. -/

def derivedProofFields (env : Env) (publicKey : List Nat)
    (document proofIn revealDocument : JObj) (nonceIn : Option (List Char))
    (sigB64 : List Char) : JObj :=
  setKey nonceK (JVal.str (resolvedNonce env nonceIn))
    (setKey totalK (JVal.num ((allInputStatements env document proofIn).length : Int))
      (setKey revealK (JVal.arr (revealIndicies env document proofIn revealDocument))
        (setKey proofK
          (JVal.str (env.base64encode
            (outputProofBytes env publicKey document proofIn revealDocument nonceIn sigB64)))
          ((typeK, JVal.str proofSuiteType)
            :: deleteKey typeK (deleteKey signatureK proofIn)))))

def deriveOutput (env : Env) (publicKey : List Nat)
    (document proofIn revealDocument : JObj) (nonceIn : Option (List Char))
    (sigB64 : List Char) : JObj :=
  setKey proofK
    (JVal.obj (derivedProofFields env publicKey document proofIn revealDocument nonceIn sigB64))
    (revealDocumentResult env document revealDocument)

/-- `deriveProof` (lines 46–180).  Fallible steps are the proof-type check, the
signature extraction, and the (intended) reveal/document mismatch check. -/

def deriveProof (env : Env) (publicKey : List Nat)
    (document proofIn revealDocument : JObj) (nonceIn : Option (List Char)) :
    Except Err JObj :=
  if getStr typeK proofIn ≠ some sigSuiteType then .error .typeMismatch
  else
    match getStr signatureK proofIn with
    | none => .error .decodeError
    | some sigB64 =>
      if (documentRevealIndicies env document proofIn revealDocument).length
          ≠ (revealDocumentStatements env document revealDocument).length
      then .error .reconciliation
      else .ok (deriveOutput env publicKey document proofIn revealDocument nonceIn sigB64)

/-- `canonizeProof` (lines 272–286): delete the four disclosure fields from a
copy and canonicalize with `skipExpansion: false`. -/

def canonizeProof (env : Env) (proofObj : JObj) : List Char :=
  env.canonize
    (deleteKey proofK (deleteKey nonceK (deleteKey revealK (deleteKey totalK proofObj))))
    (some false)

/-- `createVerifyProofData` (lines 315–325). -/

def createVerifyProofData (env : Env) (proofObj : JObj) : List (List Char) :=
  splitFilter (canonizeProof env proofObj)

/-- `createVerifyDocumentData` (lines 333–343): canonicalize without the
`skipExpansion` option (JavaScript `undefined`). -/

def createVerifyDocumentData (env : Env) (document : JObj) : List (List Char) :=
  splitFilter (env.canonize document none)

/-- The verification-method reference of the proof: a direct identifier or an
embedded object's `id` (lines 351–359). -/

def vmRefOf (proofObj : JObj) : Option (List Char) :=
  match lookupKey vmK proofObj with
  | some (JVal.obj o) => getStr idK o
  | some (JVal.str s) => some s
  | _ => none

/-- `getVerificationMethod` (lines 351–386). -/

def getVerificationMethod (env : Env) (proofObj : JObj) : Except Err JObj :=
  match vmRefOf proofObj with
  | none => .error .missingVerificationMethod
  | some r =>
    if r.isEmpty then .error .missingVerificationMethod
    else
      match env.frameVerificationMethod r with
      | none => .error .verificationMethodNotFound
      | some result =>
        if (lookupKey revokedK result).isSome then .error .revoked
        else .ok result

/-- Lines 205–222: recomputed statements, document side inverse-transformed. -/

def statementsToVerify (env : Env) (document proofObj : JObj) : List (List Char) :=
  createVerifyProofData env proofObj
    ++ (createVerifyProofData env document).map untransformStatement

/-- The request passed to `blsVerifyProof` (lines 233–240). -/

def verifyRequest (env : Env) (publicKey : List Nat) (document proofObj : JObj)
    (proofB64 : List Char) : BlsVerifyProofRequest :=
  { proof := env.base64decode proofB64
    publicKey := publicKey
    messageCount := getNum totalK proofObj
    messages := statementsToVerify env document proofObj
    nonce := getStr nonceK proofObj
    revealed := getArr revealK proofObj }

/-- The `try` block of `verifyProof` (lines 190–254), with exceptions modelled
as `Except.error`. -/

def verifyProofBody (env : Env) (publicKey : List Nat) (document proofObj : JObj)
    (purpose : Purpose) : Except Err VerifyProofResult :=
  match getVerificationMethod env proofObj with
  | .error e => .error e
  | .ok verificationMethod =>
    match getStr proofK proofObj with
    | none => .error .decodeError
    | some proofB64 =>
      if (purpose proofObj document verificationMethod).valid then
        .ok (env.blsVerifyProof (verifyRequest env publicKey document proofObj proofB64))
      else .error (purpose proofObj document verificationMethod).error

/-- `verifyProof` (lines 187–258): the catch-all converts any thrown error into
the `{ verified: false, error }` envelope. -/

def verifyProof (env : Env) (publicKey : List Nat) (document proofObj : JObj)
    (purpose : Purpose) : VerifyProofResult :=
  match verifyProofBody env publicKey document proofObj purpose with
  | .ok r => r
  | .error e => { verified := false, error := some e }

/-- The messages the §6 verify primitive expects: the revealed indices mapped
over the full message list. -/

def selectRevealed (idxs : List Int) (msgs : List (List Char)) : List (List Char) :=
  idxs.map (fun i => msgs.getD i.toNat [])

def mK : List Char := strL "m"

def docObjT : JObj := [(mK, JVal.str (strL "doc"))]

def revealTemplateT : JObj := [(mK, JVal.str (strL "tmpl"))]

def revealObjT : JObj := [(mK, JVal.str (strL "rev"))]

def proofObjT : JObj :=
  [(typeK, JVal.str sigSuiteType),
   (signatureK, JVal.str (strL "c2ln")),
   (vmK, JVal.str (strL "vm:key-1")),
   (mK, JVal.str (strL "proof"))]

def vmObjT : JObj := [(idK, JVal.str (strL "vm:key-1"))]

def purposeOk : Purpose := fun _ _ _ => { valid := true, error := Err.purposeInvalid }

def envT : Env :=
  { canonize := fun o _ =>
      match getStr mK o with
      | some v =>
        if v = strL "doc" then strL "_:c14n0 <p> <o> .\n<s> <q> <r> ."
        else if v = strL "proof" then strL "p1"
        else if v = strL "rev" then strL "<urn:bnid:_:c14n0> <p> <o> ."
        else []
      | none => []
    fromRDF := fun _ => []
    frame := fun _ _ => revealObjT
    frameVerificationMethod := fun _ => some vmObjT
    blsCreateProof := fun _ => [1, 2, 3]
    blsVerifyProof := fun _ => { verified := true, error := none }
    randomBytes := fun n => List.replicate n 7
    base64encode := fun _ => strL "QjY0"
    base64decode := fun _ => [1, 2, 3] }

def pkT : List Nat := [5]

/-- Environment in which the framed reveal canonicalizes to a statement that
does not occur in the (transformed) document statements. -/

def envC1 : Env :=
  { envT with
    canonize := fun o _ =>
      match getStr mK o with
      | some v =>
        if v = strL "doc" then strL "_:c14n0 <p> <o> .\n<s> <q> <r> ."
        else if v = strL "proof" then strL "p1"
        else if v = strL "rev" then strL "<zz> <zz> <zz> ."
        else []
      | none => [] }


















/-- C7: a resolved verification method carrying a revocation marker makes
`verifyProof` return `{ verified: false }` with the Revoked cause no matter what
the cryptographic primitive would report; resolution fails with the
missing-reference error when the proof has no verification-method reference (or
a falsy one), and with the not-found error when framing the reference resolves
to nothing. -/

def envRevoked : Env :=
  { envT with
    frameVerificationMethod := fun _ =>
      some [(idK, JVal.str (strL "vm:key-1")), (revokedK, JVal.str (strL "2024"))] }

def envNoVM : Env :=
  { envT with frameVerificationMethod := fun _ => none }


/-- C8: an invalid purpose-validation result forces the failure envelope
carrying the purpose cause even though the cryptographic result had been
computed, and a `verified: true` outcome requires the verification method to
resolve, the purpose check to pass, and the cryptographic primitive itself to
report `verified: true`. -/

def purposeBad : Purpose := fun _ _ _ => { valid := false, error := Err.purposeInvalid }





theorem firstTok_append_restTok (s : List Char) : firstTok s ++ restTok s = s := by
  unfold firstTok restTok
  exact List.takeWhile_append_dropWhile notSpace s

theorem notSpace_of_mem_firstTok {c : Char} {s : List Char} (h : c ∈ firstTok s) :
    c ≠ ' ' := by
  have := List.mem_takeWhile_imp h
  simpa [notSpace] using this

theorem restTok_shape (s : List Char) : restTok s = [] ∨ ∃ r, restTok s = ' ' :: r := by
  induction s with
  | nil => exact Or.inl rfl
  | cons c cs ih =>
    by_cases hc : c = ' '
    · subst hc
      exact Or.inr ⟨cs, by simp [restTok, List.dropWhile_cons, notSpace]⟩
    · simpa [restTok, List.dropWhile_cons, notSpace, hc] using ih

/-- Splitting a line built from a space-free token and a space-headed remainder. -/
theorem tok_split (a b : List Char) (ha : ∀ c ∈ a, c ≠ ' ')
    (hb : b = [] ∨ ∃ r, b = ' ' :: r) :
    firstTok (a ++ b) = a ∧ restTok (a ++ b) = b := by
  induction a with
  | nil =>
    refine ⟨?_, ?_⟩
    · rcases hb with h | ⟨r, h⟩ <;> subst h <;>
        simp [firstTok, List.takeWhile_cons, notSpace]
    · rcases hb with h | ⟨r, h⟩ <;> subst h <;>
        simp [restTok, List.dropWhile_cons, notSpace]
  | cons c cs ih =>
    have hc : c ≠ ' ' := ha c (List.mem_cons_self c cs)
    have ih' := ih (fun x hx => ha x (List.mem_cons_of_mem c hx))
    refine ⟨?_, ?_⟩
    · simpa [firstTok, List.takeWhile_cons, notSpace, hc] using ih'.1
    · simpa [restTok, List.dropWhile_cons, notSpace, hc] using ih'.2

theorem replaceFirst_of_prefix (pat repl s : List Char) (h : pat <+: s) :
    replaceFirst pat repl s = repl ++ s.drop pat.length := by
  cases s with
  | nil =>
    have hp : pat = [] := List.prefix_nil.mp h
    subst hp; simp [replaceFirst]
  | cons c cs =>
    rw [replaceFirst, if_pos (List.isPrefixOf_iff_prefix.mpr h)]

theorem drop_firstTok (el : List Char) : el.drop (firstTok el).length = restTok el := by
  have h := firstTok_append_restTok el
  calc el.drop (firstTok el).length
      = (firstTok el ++ restTok el).drop (firstTok el).length := by rw [h]
    _ = restTok el := List.drop_left _ _

theorem transformStatement_of_pos {el : List Char}
    (h : bnMark.isPrefixOf (firstTok el) = true) :
    transformStatement el = (urnOpen ++ firstTok el ++ ['>']) ++ restTok el := by
  have hp : firstTok el <+: el := List.takeWhile_prefix _
  unfold transformStatement
  rw [if_pos h, replaceFirst_of_prefix _ _ _ hp, drop_firstTok]

theorem transformStatement_of_neg {el : List Char}
    (h : bnMark.isPrefixOf (firstTok el) = false) :
    transformStatement el = el := by
  unfold transformStatement
  rw [if_neg (by simp [h])]

theorem tok_split_transformed {el : List Char}
    (h : bnMark.isPrefixOf (firstTok el) = true) :
    firstTok (transformStatement el) = urnOpen ++ firstTok el ++ ['>']
    ∧ restTok (transformStatement el) = restTok el := by
  rw [transformStatement_of_pos h]
  refine tok_split _ _ ?_ (restTok_shape el)
  intro c hc
  rcases List.mem_append.mp hc with h1 | h2
  · exact fun hsp => by
      rcases List.mem_append.mp h1 with hu | hf
      · revert hu; subst hsp; decide
      · exact notSpace_of_mem_firstTok hf hsp
  · intro hsp
    revert h2; subst hsp; decide

theorem untransform_transform {el : List Char}
    (h : urnMark.isPrefixOf (firstTok el) = false) :
    untransformStatement (transformStatement el) = el := by
  by_cases hg : bnMark.isPrefixOf (firstTok el) = true
  · obtain ⟨hft, _⟩ := tok_split_transformed hg
    unfold untransformStatement
    rw [hft]
    have hpre : urnMark.isPrefixOf (urnOpen ++ firstTok el ++ ['>']) = true := by
      rw [List.isPrefixOf_iff_prefix]
      have hm : urnMark = urnOpen ++ bnMark := by decide
      rw [hm, List.append_assoc]
      exact (List.prefix_append_right_inj urnOpen).mpr
        ((List.isPrefixOf_iff_prefix.mp hg).trans (List.prefix_append _ _))
    rw [if_pos hpre, transformStatement_of_pos hg,
      replaceFirst_of_prefix _ _ _ (List.prefix_append _ _)]
    have hdrop : ((urnOpen ++ firstTok el ++ ['>']).drop urnOpen.length).dropLast
        = firstTok el := by
      rw [List.append_assoc, List.drop_left, List.dropLast_concat]
    rw [hdrop, List.drop_left, firstTok_append_restTok]
  · have hg' : bnMark.isPrefixOf (firstTok el) = false := by
      revert hg; cases bnMark.isPrefixOf (firstTok el) <;> simp
    rw [transformStatement_of_neg hg']
    unfold untransformStatement
    rw [if_neg (by simp [h])]

theorem untransformStatement_of_pos {el : List Char}
    (h : urnMark.isPrefixOf (firstTok el) = true) :
    untransformStatement el
      = ((firstTok el).drop urnOpen.length).dropLast ++ restTok el := by
  have hp : firstTok el <+: el := List.takeWhile_prefix _
  unfold untransformStatement
  rw [if_pos h, replaceFirst_of_prefix _ _ _ hp, drop_firstTok]

theorem untransformStatement_of_neg {el : List Char}
    (h : urnMark.isPrefixOf (firstTok el) = false) :
    untransformStatement el = el := by
  unfold untransformStatement
  rw [if_neg (by simp [h])]

/-- Both transforms leave everything after the subject token unchanged. -/
theorem restTok_transformStatement (el : List Char) :
    restTok (transformStatement el) = restTok el := by
  by_cases h : bnMark.isPrefixOf (firstTok el) = true
  · exact (tok_split_transformed h).2
  · rw [transformStatement_of_neg (by revert h; cases bnMark.isPrefixOf (firstTok el) <;> simp)]

theorem restTok_untransformStatement (el : List Char) :
    restTok (untransformStatement el) = restTok el := by
  by_cases h : urnMark.isPrefixOf (firstTok el) = true
  · rw [untransformStatement_of_pos h]
    refine (tok_split _ _ ?_ (restTok_shape el)).2
    intro c hc
    exact notSpace_of_mem_firstTok (List.mem_of_mem_drop (List.mem_of_mem_dropLast hc))
  · rw [untransformStatement_of_neg
      (by revert h; cases urnMark.isPrefixOf (firstTok el) <;> simp)]

theorem lookupKey_eq_none (k : List Char) (o : JObj)
    (h : (o.any fun kv => decide (kv.1 = k)) = false) : lookupKey k o = none := by
  induction o with
  | nil => rfl
  | cons kv rest ih =>
    rw [List.any_cons, Bool.or_eq_false_iff] at h
    have hk : ¬ kv.1 = k := by simpa using h.1
    rw [lookupKey, if_neg hk]
    exact ih h.2

theorem lookupKey_append_left (k : List Char) (o1 o2 : JObj)
    (h : lookupKey k o1 = none) : lookupKey k (o1 ++ o2) = lookupKey k o2 := by
  induction o1 with
  | nil => rfl
  | cons kv rest ih =>
    by_cases hk : kv.1 = k
    · rw [lookupKey, if_pos hk] at h; exact absurd h (by simp)
    · rw [lookupKey, if_neg hk] at h
      rw [List.cons_append, lookupKey, if_neg hk]
      exact ih h

theorem lookupKey_mapReplace_self (k : List Char) (v : JVal) (o : JObj)
    (h : (o.any fun kv => decide (kv.1 = k)) = true) :
    lookupKey k (o.map fun kv => if kv.1 = k then (k, v) else kv) = some v := by
  induction o with
  | nil => simp at h
  | cons kv rest ih =>
    by_cases hk : kv.1 = k
    · rw [List.map_cons, if_pos hk, lookupKey, if_pos rfl]
    · rw [List.any_cons, Bool.or_eq_true_iff] at h
      have h2 : (rest.any fun kv => decide (kv.1 = k)) = true := by
        rcases h with h1 | h2
        · exact absurd (of_decide_eq_true h1) hk
        · exact h2
      rw [List.map_cons, if_neg hk, lookupKey, if_neg hk]
      exact ih h2

theorem lookupKey_mapReplace_ne (k k2 : List Char) (v : JVal) (o : JObj)
    (hne : k ≠ k2) :
    lookupKey k (o.map fun kv => if kv.1 = k2 then (k2, v) else kv)
      = lookupKey k o := by
  induction o with
  | nil => rfl
  | cons kv rest ih =>
    by_cases hk2 : kv.1 = k2
    · have hk : ¬ kv.1 = k := fun hh => hne (hh.symm.trans hk2)
      rw [List.map_cons, if_pos hk2, lookupKey,
        if_neg (fun hh => hne (Eq.symm hh)), lookupKey, if_neg hk]
      exact ih
    · rw [List.map_cons, if_neg hk2, lookupKey]
      by_cases hk : kv.1 = k
      · rw [if_pos hk, lookupKey, if_pos hk]
      · rw [if_neg hk, lookupKey, if_neg hk]
        exact ih

theorem lookupKey_setKey_self (k : List Char) (v : JVal) (o : JObj) :
    lookupKey k (setKey k v o) = some v := by
  unfold setKey
  by_cases h : (o.any fun kv => decide (kv.1 = k)) = true
  · rw [if_pos h]
    exact lookupKey_mapReplace_self k v o h
  · rw [if_neg h]
    have hfalse : (o.any fun kv => decide (kv.1 = k)) = false := by
      revert h; cases (o.any fun kv => decide (kv.1 = k)) <;> simp
    rw [lookupKey_append_left k o _ (lookupKey_eq_none k o hfalse)]
    rw [lookupKey, if_pos rfl]

theorem lookupKey_setKey_ne (k k2 : List Char) (v : JVal) (o : JObj)
    (hne : k ≠ k2) : lookupKey k (setKey k2 v o) = lookupKey k o := by
  unfold setKey
  by_cases h : (o.any fun kv => decide (kv.1 = k2)) = true
  · rw [if_pos h]
    exact lookupKey_mapReplace_ne k k2 v o hne
  · rw [if_neg h]
    induction o with
    | nil =>
      simp only [List.nil_append, lookupKey]
      rw [if_neg (fun hh => hne (Eq.symm hh))]
    | cons kv rest ih =>
      by_cases hk : kv.1 = k
      · rw [List.cons_append, lookupKey, if_pos hk, lookupKey, if_pos hk]
      · rw [List.cons_append, lookupKey, if_neg hk, lookupKey, if_neg hk]
        exact ih (by intro hr; exact h (by rw [List.any_cons, hr, Bool.or_true]))

theorem deleteKey_of_absent (k : List Char) (o : JObj)
    (h : ∀ kv ∈ o, kv.1 ≠ k) : deleteKey k o = o := by
  unfold deleteKey
  apply List.filter_eq_self.mpr
  intro kv hkv
  simpa using h kv hkv

theorem deleteKey_setKey_self (k : List Char) (v : JVal) (o : JObj) :
    deleteKey k (setKey k v o) = deleteKey k o := by
  unfold setKey
  by_cases h : (o.any fun kv => decide (kv.1 = k)) = true
  · rw [if_pos h]
    clear h
    induction o with
    | nil => rfl
    | cons kv rest ih =>
      by_cases hk : kv.1 = k
      · rw [List.map_cons, if_pos hk]
        unfold deleteKey
        rw [List.filter_cons, List.filter_cons]
        simp only [hk, decide_True, Bool.not_true, if_neg]
        exact ih
      · rw [List.map_cons, if_neg hk]
        unfold deleteKey
        rw [List.filter_cons, List.filter_cons]
        simp only [hk, decide_False, Bool.not_false, if_pos]
        rw [List.cons_inj_right]
        exact ih
  · rw [if_neg h]
    unfold deleteKey
    rw [List.filter_append]
    simp

theorem jsIndexOf_spec {l : List (List Char)} {key : List Char} (h : key ∈ l) :
    0 ≤ jsIndexOf l key ∧ (jsIndexOf l key).toNat < l.length
      ∧ l.getD (jsIndexOf l key).toNat [] = key := by
  induction l with
  | nil => cases h
  | cons x xs ih =>
    by_cases hx : x = key
    · refine ⟨?_, ?_, ?_⟩ <;> simp [jsIndexOf, hx]
    · have hkey : key ∈ xs := by
        rcases List.mem_cons.mp h with h1 | h2
        · exact absurd h1.symm hx
        · exact h2
      obtain ⟨h0, hlt, hgd⟩ := ih hkey
      have hne : ¬ jsIndexOf xs key = -1 := by omega
      have hr : jsIndexOf (x :: xs) key = jsIndexOf xs key + 1 := by
        simp only [jsIndexOf]
        rw [if_neg hx, if_neg hne]
      have htn : (jsIndexOf xs key + 1).toNat = (jsIndexOf xs key).toNat + 1 := by
        omega
      refine ⟨by omega, ?_, ?_⟩
      · rw [hr, htn, List.length_cons]
        omega
      · rw [hr, htn, List.getD_cons_succ]
        exact hgd

theorem map_range_getD (l suffix : List (List Char)) :
    (List.range l.length).map (fun i => (l ++ suffix).getD i []) = l := by
  induction l with
  | nil => rfl
  | cons a tl ih =>
    simp only [List.length_cons, List.range_succ_eq_map, List.map_cons, List.map_map,
      List.cons_append, List.getD_cons_zero]
    refine congrArg (a :: ·) ?_
    refine Eq.trans ?_ ih
    apply List.map_congr_left
    intro i _
    simp [Function.comp, List.getD_cons_succ]

theorem selectRevealed_range (ps suffix : List (List Char)) :
    selectRevealed ((List.range ps.length).map Int.ofNat) (ps ++ suffix) = ps := by
  unfold selectRevealed
  rw [List.map_map]
  refine Eq.trans ?_ (map_range_getD ps suffix)
  apply List.map_congr_left
  intro i _
  simp [Function.comp]

theorem selectRevealed_append (a b : List Int) (msgs : List (List Char)) :
    selectRevealed (a ++ b) msgs = selectRevealed a msgs ++ selectRevealed b msgs :=
  List.map_append _ a b

theorem getStr_nonce_derived (env : Env) (publicKey : List Nat)
    (document proofIn revealDocument : JObj) (nonceIn : Option (List Char))
    (sigB64 : List Char) :
    getStr nonceK (derivedProofFields env publicKey document proofIn revealDocument nonceIn sigB64)
      = some (resolvedNonce env nonceIn) := by
  unfold derivedProofFields getStr
  rw [lookupKey_setKey_self]

theorem getNum_total_derived (env : Env) (publicKey : List Nat)
    (document proofIn revealDocument : JObj) (nonceIn : Option (List Char))
    (sigB64 : List Char) :
    getNum totalK (derivedProofFields env publicKey document proofIn revealDocument nonceIn sigB64)
      = some ((allInputStatements env document proofIn).length : Int) := by
  unfold derivedProofFields getNum
  rw [lookupKey_setKey_ne _ _ _ _ (by decide), lookupKey_setKey_self]

theorem getArr_reveal_derived (env : Env) (publicKey : List Nat)
    (document proofIn revealDocument : JObj) (nonceIn : Option (List Char))
    (sigB64 : List Char) :
    getArr revealK (derivedProofFields env publicKey document proofIn revealDocument nonceIn sigB64)
      = some (revealIndicies env document proofIn revealDocument) := by
  unfold derivedProofFields getArr
  rw [lookupKey_setKey_ne _ _ _ _ (by decide), lookupKey_setKey_ne _ _ _ _ (by decide),
    lookupKey_setKey_self]

theorem getStr_proof_derived (env : Env) (publicKey : List Nat)
    (document proofIn revealDocument : JObj) (nonceIn : Option (List Char))
    (sigB64 : List Char) :
    getStr proofK (derivedProofFields env publicKey document proofIn revealDocument nonceIn sigB64)
      = some (env.base64encode
          (outputProofBytes env publicKey document proofIn revealDocument nonceIn sigB64)) := by
  unfold derivedProofFields getStr
  rw [lookupKey_setKey_ne _ _ _ _ (by decide), lookupKey_setKey_ne _ _ _ _ (by decide),
    lookupKey_setKey_ne _ _ _ _ (by decide), lookupKey_setKey_self]

theorem getObjField_proof_output (env : Env) (publicKey : List Nat)
    (document proofIn revealDocument : JObj) (nonceIn : Option (List Char))
    (sigB64 : List Char) :
    getObjField proofK (deriveOutput env publicKey document proofIn revealDocument nonceIn sigB64)
      = some (derivedProofFields env publicKey document proofIn revealDocument nonceIn sigB64) := by
  unfold deriveOutput getObjField
  rw [lookupKey_setKey_self]

theorem deleteKey_proof_output (env : Env) (publicKey : List Nat)
    (document proofIn revealDocument : JObj) (nonceIn : Option (List Char))
    (sigB64 : List Char) :
    deleteKey proofK (deriveOutput env publicKey document proofIn revealDocument nonceIn sigB64)
      = deleteKey proofK (revealDocumentResult env document revealDocument) := by
  unfold deriveOutput
  exact deleteKey_setKey_self _ _ _

/-- Inversion of a successful derivation. -/
theorem deriveProof_ok_inv {env : Env} {pk : List Nat}
    {document proofIn revealDocument : JObj} {nonceIn : Option (List Char)} {out : JObj}
    (h : deriveProof env pk document proofIn revealDocument nonceIn = Except.ok out) :
    ∃ sigB64, getStr signatureK proofIn = some sigB64
      ∧ out = deriveOutput env pk document proofIn revealDocument nonceIn sigB64 := by
  unfold deriveProof at h
  split at h
  · cases h
  · split at h
    · cases h
    · rename_i sigB64 hs
      split at h
      · cases h
      · injection h with h
        exact ⟨sigB64, hs, h.symm⟩

/-- The mismatch guard of lines 138–143 can never fire: `documentRevealIndicies`
is a `map` over `revealDocumentStatements`, so the two lengths always agree. -/
theorem documentRevealIndicies_length (env : Env)
    (document proofIn revealDocument : JObj) :
    (documentRevealIndicies env document proofIn revealDocument).length
      = (revealDocumentStatements env document revealDocument).length := by
  unfold documentRevealIndicies
  exact List.length_map _ _

/-- C1: the claim states that a revealed statement with no exact match in the
full document statement list makes `deriveProof` abort with the Reconciliation
error.  In the code the guard compares the length of a `map` result with the
length of the mapped list, so it never fires: derivation never returns the
Reconciliation error, and on a concrete input whose revealed statement is
absent from the document, derivation succeeds and emits the bogus index
`numberOfProofStatements - 1` (here `[0, 0]`) produced by `indexOf` returning
`-1`. -/
theorem C1_reconciliation_guard_dead :
    (∀ (env : Env) (pk : List Nat) (document proofIn revealDocument : JObj)
        (nonceIn : Option (List Char)),
      deriveProof env pk document proofIn revealDocument nonceIn
          = Except.error Err.typeMismatch
        ∨ deriveProof env pk document proofIn revealDocument nonceIn
            = Except.error Err.decodeError
        ∨ ∃ out, deriveProof env pk document proofIn revealDocument nonceIn
            = Except.ok out)
    ∧ (deriveProof envC1 pkT docObjT proofObjT revealTemplateT (some (strL "n1"))
        = Except.ok (deriveOutput envC1 pkT docObjT proofObjT revealTemplateT
            (some (strL "n1")) (strL "c2ln"))
      ∧ getArr revealK (derivedProofFields envC1 pkT docObjT proofObjT revealTemplateT
            (some (strL "n1")) (strL "c2ln"))
        = some [0, 0]
      ∧ revealDocumentStatements envC1 docObjT revealTemplateT
        = [strL "<zz> <zz> <zz> ."]
      ∧ (strL "<zz> <zz> <zz> .")
          ∉ transformedInputDocumentStatements envC1 docObjT) := by
  constructor
  · intro env pk document proofIn revealDocument nonceIn
    unfold deriveProof
    split
    · exact Or.inl rfl
    · split
      · exact Or.inr (Or.inl rfl)
      · rw [if_neg (fun hne => hne (documentRevealIndicies_length env document proofIn
          revealDocument))]
        exact Or.inr (Or.inr ⟨_, rfl⟩)
  · exact ⟨rfl, by decide, by decide, by decide⟩

/-- C3: every error raised inside the `try` block of `verifyProof` is caught and
returned as the `{ verified: false, error }` envelope, and a normally computed
result is passed through unchanged — the operation itself never raises. -/
theorem C3_verify_never_throws :
    (∀ (env : Env) (pk : List Nat) (document proofObj : JObj) (purpose : Purpose)
        (e : Err),
      verifyProofBody env pk document proofObj purpose = Except.error e →
      verifyProof env pk document proofObj purpose
        = { verified := false, error := some e })
    ∧ (∀ (env : Env) (pk : List Nat) (document proofObj : JObj) (purpose : Purpose)
        (r : VerifyProofResult),
      verifyProofBody env pk document proofObj purpose = Except.ok r →
      verifyProof env pk document proofObj purpose = r) := by
  constructor
  · intro env pk document proofObj purpose e h
    unfold verifyProof
    rw [h]
  · intro env pk document proofObj purpose r h
    unfold verifyProof
    rw [h]

/-- Witness for C3: a failing input is converted into the envelope, and a
successful verification passes the primitive's result through. -/
theorem C3_verify_never_throws_witness :
    verifyProof envT pkT docObjT ([] : JObj) purposeOk
        = { verified := false, error := some Err.missingVerificationMethod }
    ∧ verifyProof envT pkT docObjT
        (derivedProofFields envT pkT docObjT proofObjT revealTemplateT
          (some (strL "n1")) (strL "c2ln")) purposeOk
        = { verified := true, error := none } :=
  ⟨C3_verify_never_throws.1 envT pkT docObjT [] purposeOk
      Err.missingVerificationMethod rfl,
    C3_verify_never_throws.2 envT pkT docObjT _ purposeOk _ rfl⟩

/-- C4: for every successful derivation, the `revealStatements` list of the
derived proof begins with exactly the indices `0 .. numberOfProofStatements-1`
and has total length `numberOfProofStatements` plus the number of statements of
the canonicalized revealed subgraph. -/
theorem C4_reveal_indices_shape (env : Env) (pk : List Nat)
    (document proofIn revealDocument : JObj) (nonceIn : Option (List Char))
    (out : JObj)
    (h : deriveProof env pk document proofIn revealDocument nonceIn = Except.ok out) :
    ∃ p idxs, getObjField proofK out = some p ∧ getArr revealK p = some idxs
      ∧ idxs.take (numberOfProofStatements env proofIn)
          = (List.range (numberOfProofStatements env proofIn)).map Int.ofNat
      ∧ idxs.length = numberOfProofStatements env proofIn
          + (revealDocumentStatements env document revealDocument).length := by
  obtain ⟨sigB64, hs, rfl⟩ := deriveProof_ok_inv h
  refine ⟨derivedProofFields env pk document proofIn revealDocument nonceIn sigB64,
    revealIndicies env document proofIn revealDocument,
    getObjField_proof_output env pk document proofIn revealDocument nonceIn sigB64,
    getArr_reveal_derived env pk document proofIn revealDocument nonceIn sigB64,
    ?_, ?_⟩
  · unfold revealIndicies
    apply List.take_left'
    rw [List.length_map, List.length_range]
  · unfold revealIndicies
    rw [List.length_append, List.length_map, List.length_range,
      documentRevealIndicies_length]

/-- Witness for C4 on a concrete successful derivation. -/
theorem C4_reveal_indices_shape_witness :
    ∃ p idxs,
      getObjField proofK (deriveOutput envT pkT docObjT proofObjT revealTemplateT
          (some (strL "n1")) (strL "c2ln")) = some p
      ∧ getArr revealK p = some idxs
      ∧ idxs.take (numberOfProofStatements envT proofObjT)
          = (List.range (numberOfProofStatements envT proofObjT)).map Int.ofNat
      ∧ idxs.length = numberOfProofStatements envT proofObjT
          + (revealDocumentStatements envT docObjT revealTemplateT).length :=
  C4_reveal_indices_shape envT pkT docObjT proofObjT revealTemplateT
    (some (strL "n1")) _ rfl

/-- C5 counterexample: the claim promises that a caller-supplied nonce appears
verbatim in the derived proof, but supplying the empty string — a caller-supplied
value that is falsy in JavaScript — yields a derived proof whose nonce is the
freshly generated base64 value instead. -/
theorem C5_counterexample_empty_nonce :
    deriveProof envT pkT docObjT proofObjT revealTemplateT (some ([] : List Char))
        = Except.ok (deriveOutput envT pkT docObjT proofObjT revealTemplateT
            (some []) (strL "c2ln"))
      ∧ getStr nonceK (derivedProofFields envT pkT docObjT proofObjT revealTemplateT
            (some []) (strL "c2ln"))
        = some (envT.base64encode (envT.randomBytes 50))
      ∧ getStr nonceK (derivedProofFields envT pkT docObjT proofObjT revealTemplateT
            (some []) (strL "c2ln"))
        ≠ some ([] : List Char) :=
  ⟨rfl, by decide, by decide⟩

/-- C5 (amended): a caller-supplied NON-EMPTY nonce appears verbatim in the
derived proof's nonce field; when the nonce is absent (or empty, per the
truthiness test of line 148) the suite base64-encodes 50 fresh random bytes
instead. -/
theorem C5_nonce_handling :
    (∀ (env : Env) (pk : List Nat) (document proofIn revealDocument : JObj)
        (nonce : List Char) (out : JObj),
      deriveProof env pk document proofIn revealDocument (some nonce) = Except.ok out →
      nonce ≠ [] →
      ∃ p, getObjField proofK out = some p ∧ getStr nonceK p = some nonce)
    ∧ (∀ (env : Env) (pk : List Nat) (document proofIn revealDocument : JObj)
        (out : JObj),
      deriveProof env pk document proofIn revealDocument none = Except.ok out →
      ∃ p, getObjField proofK out = some p
        ∧ getStr nonceK p = some (env.base64encode (env.randomBytes 50))) := by
  constructor
  · intro env pk document proofIn revealDocument nonce out h hne
    obtain ⟨sigB64, hs, rfl⟩ := deriveProof_ok_inv h
    refine ⟨derivedProofFields env pk document proofIn revealDocument (some nonce) sigB64,
      getObjField_proof_output env pk document proofIn revealDocument (some nonce) sigB64,
      ?_⟩
    rw [getStr_nonce_derived]
    have hr : resolvedNonce env (some nonce) = nonce := by
      unfold resolvedNonce
      exact if_neg (by simpa [List.isEmpty_iff] using hne)
    rw [hr]
  · intro env pk document proofIn revealDocument out h
    obtain ⟨sigB64, hs, rfl⟩ := deriveProof_ok_inv h
    exact ⟨derivedProofFields env pk document proofIn revealDocument none sigB64,
      getObjField_proof_output env pk document proofIn revealDocument none sigB64,
      getStr_nonce_derived env pk document proofIn revealDocument none sigB64⟩

/-- Witness for the amended C5 at concrete inputs. -/
theorem C5_nonce_handling_witness :
    (∃ p, getObjField proofK (deriveOutput envT pkT docObjT proofObjT revealTemplateT
        (some (strL "n1")) (strL "c2ln")) = some p
      ∧ getStr nonceK p = some (strL "n1"))
    ∧ (∃ p, getObjField proofK (deriveOutput envT pkT docObjT proofObjT revealTemplateT
        none (strL "c2ln")) = some p
      ∧ getStr nonceK p = some (envT.base64encode (envT.randomBytes 50))) :=
  ⟨C5_nonce_handling.1 envT pkT docObjT proofObjT revealTemplateT (strL "n1") _ rfl
      (by decide),
    C5_nonce_handling.2 envT pkT docObjT proofObjT revealTemplateT _ rfl⟩

/-- C10: a caller-supplied falsy nonce (the empty string) is silently replaced —
the truthiness check of line 148 treats it as absent, so the derived proof
carries the freshly generated base64-encoded 50-byte nonce instead. -/
theorem C10_falsy_nonce_replaced (env : Env) (pk : List Nat)
    (document proofIn revealDocument : JObj) (out : JObj)
    (h : deriveProof env pk document proofIn revealDocument (some []) = Except.ok out) :
    ∃ p, getObjField proofK out = some p
      ∧ getStr nonceK p = some (env.base64encode (env.randomBytes 50)) := by
  obtain ⟨sigB64, hs, rfl⟩ := deriveProof_ok_inv h
  refine ⟨derivedProofFields env pk document proofIn revealDocument (some []) sigB64,
    getObjField_proof_output env pk document proofIn revealDocument (some []) sigB64, ?_⟩
  rw [getStr_nonce_derived]
  rfl

/-- Witness for C10 at a concrete input. -/
theorem C10_falsy_nonce_replaced_witness :
    ∃ p, getObjField proofK (deriveOutput envT pkT docObjT proofObjT revealTemplateT
        (some []) (strL "c2ln")) = some p
      ∧ getStr nonceK p = some (envT.base64encode (envT.randomBytes 50)) :=
  C10_falsy_nonce_replaced envT pkT docObjT proofObjT revealTemplateT _ rfl

/-- C6 counterexample: on a statement whose subject already has the wrapped form
`<urn:bnid:_:c14n0>`, the forward transform is a no-op but the inverse strips
the wrapper, so forward-then-inverse is not the identity on every statement
list. -/
theorem C6_counterexample_roundtrip :
    (([strL "<urn:bnid:_:c14n0> <p> <o> ."].map transformStatement).map
        untransformStatement)
      ≠ [strL "<urn:bnid:_:c14n0> <p> <o> ."] := by decide

/-- C6 (amended): forward-then-inverse is the identity on every statement list
in which no statement's subject token already starts with `<urn:bnid:_:c14n`;
both transforms rewrite only the subject token — everything after it is
preserved — and both preserve statement count and order. -/
theorem C6_stabilizer_roundtrip :
    (∀ stmts : List (List Char),
      (∀ s ∈ stmts, urnMark.isPrefixOf (firstTok s) = false) →
      (stmts.map transformStatement).map untransformStatement = stmts)
    ∧ (∀ stmts : List (List Char),
        (stmts.map transformStatement).length = stmts.length
        ∧ (stmts.map untransformStatement).length = stmts.length)
    ∧ (∀ (stmts : List (List Char)) (i : Nat),
        (stmts.map transformStatement)[i]? = (stmts[i]?).map transformStatement
        ∧ (stmts.map untransformStatement)[i]? = (stmts[i]?).map untransformStatement)
    ∧ (∀ s : List Char, restTok (transformStatement s) = restTok s
        ∧ restTok (untransformStatement s) = restTok s) := by
  refine ⟨?_, ?_, ?_, ?_⟩
  · intro stmts h
    rw [List.map_map]
    refine Eq.trans (List.map_congr_left ?_) (List.map_id stmts)
    intro s hs
    exact untransform_transform (h s hs)
  · intro stmts
    exact ⟨List.length_map _ _, List.length_map _ _⟩
  · intro stmts i
    exact ⟨List.getElem?_map _ _ _, List.getElem?_map _ _ _⟩
  · intro s
    exact ⟨restTok_transformStatement s, restTok_untransformStatement s⟩

/-- Witness for the amended C6 on a concrete list with a blank-node subject and
an ordinary subject. -/
theorem C6_stabilizer_roundtrip_witness :
    (([strL "_:c14n0 <p> <o> .", strL "<s> <q> <r> ."].map transformStatement).map
        untransformStatement)
      = [strL "_:c14n0 <p> <o> .", strL "<s> <q> <r> ."] :=
  C6_stabilizer_roundtrip.1 _ (by decide)

/-- C9: on the verify path the document statements are recomputed by the
proof-statement-canonicalization routine applied to the document parameter
(first conjunct, the `messages` of the request to the primitive), and for every
document carrying none of the four disclosure fields this routine produces the
same statement list as the document-canonicalization routine, provided the
canonicalizer treats the absent `skipExpansion` option as `false` (the
documented default of the external canonicalizer). -/
theorem C9_verify_document_recomputation :
    (∀ (env : Env) (pk : List Nat) (document proofObj : JObj) (pb : List Char),
      (verifyRequest env pk document proofObj pb).messages
        = createVerifyProofData env proofObj
          ++ (createVerifyProofData env document).map untransformStatement)
    ∧ (∀ (env : Env) (document : JObj),
      (∀ o, env.canonize o none = env.canonize o (some false)) →
      (∀ kv ∈ document,
        kv.1 ≠ totalK ∧ kv.1 ≠ revealK ∧ kv.1 ≠ nonceK ∧ kv.1 ≠ proofK) →
      createVerifyProofData env document = createVerifyDocumentData env document) := by
  constructor
  · intro env pk document proofObj pb
    rfl
  · intro env document hdef habs
    unfold createVerifyProofData createVerifyDocumentData canonizeProof
    rw [deleteKey_of_absent totalK document (fun kv h => (habs kv h).1),
      deleteKey_of_absent revealK document (fun kv h => (habs kv h).2.1),
      deleteKey_of_absent nonceK document (fun kv h => (habs kv h).2.2.1),
      deleteKey_of_absent proofK document (fun kv h => (habs kv h).2.2.2),
      ← hdef]

/-- Witness for C9 on a concrete document without disclosure fields. -/
theorem C9_verify_document_recomputation_witness :
    createVerifyProofData envT revealObjT = createVerifyDocumentData envT revealObjT :=
  C9_verify_document_recomputation.2 envT revealObjT (fun _ => rfl) (by decide)

/-- Resolution of a verification method carrying a revocation marker fails with
the Revoked error (lines 380–383). -/
theorem getVerificationMethod_revoked (env : Env) (proofObj : JObj)
    (r : List Char) (res : JObj) (hr : vmRefOf proofObj = some r) (hne : r ≠ [])
    (hf : env.frameVerificationMethod r = some res)
    (hrev : (lookupKey revokedK res).isSome = true) :
    getVerificationMethod env proofObj = Except.error Err.revoked := by
  simp only [getVerificationMethod, hr, hf]
  rw [if_neg (by simpa [List.isEmpty_iff] using hne), if_pos hrev]

/-- C7: a resolved verification method carrying a revocation marker makes
`verifyProof` return `{ verified: false }` with the Revoked cause no matter what
the cryptographic primitive would report; resolution fails with the
missing-reference error when the proof has no verification-method reference (or
a falsy one), and with the not-found error when framing the reference resolves
to nothing. -/
theorem C7_verification_method_failures :
    (∀ (env : Env) (pk : List Nat) (document proofObj : JObj) (purpose : Purpose)
        (r : List Char) (res : JObj),
      vmRefOf proofObj = some r → r ≠ [] →
      env.frameVerificationMethod r = some res →
      (lookupKey revokedK res).isSome = true →
      verifyProof env pk document proofObj purpose
        = { verified := false, error := some Err.revoked })
    ∧ (∀ (env : Env) (proofObj : JObj),
      vmRefOf proofObj = none ∨ vmRefOf proofObj = some [] →
      getVerificationMethod env proofObj = Except.error Err.missingVerificationMethod)
    ∧ (∀ (env : Env) (proofObj : JObj) (r : List Char),
      vmRefOf proofObj = some r → r ≠ [] →
      env.frameVerificationMethod r = none →
      getVerificationMethod env proofObj
        = Except.error Err.verificationMethodNotFound) := by
  refine ⟨?_, ?_, ?_⟩
  · intro env pk document proofObj purpose r res hr hne hf hrev
    have hb : verifyProofBody env pk document proofObj purpose
        = Except.error Err.revoked := by
      unfold verifyProofBody
      rw [getVerificationMethod_revoked env proofObj r res hr hne hf hrev]
    unfold verifyProof
    rw [hb]
  · intro env proofObj h
    rcases h with h | h <;> simp [getVerificationMethod, h]
  · intro env proofObj r hr hne hf
    simp only [getVerificationMethod, hr, hf]
    rw [if_neg (by simpa [List.isEmpty_iff] using hne)]

/-- Witness for C7: a revoked method yields the Revoked envelope even though the
primitives of this environment would report success; a proof without a
verification-method reference fails with the missing-reference error; an
unresolvable reference fails with the not-found error. -/
theorem C7_verification_method_failures_witness :
    verifyProof envRevoked pkT docObjT proofObjT purposeOk
        = { verified := false, error := some Err.revoked }
    ∧ getVerificationMethod envT ([] : JObj)
        = Except.error Err.missingVerificationMethod
    ∧ getVerificationMethod envNoVM proofObjT
        = Except.error Err.verificationMethodNotFound :=
  ⟨C7_verification_method_failures.1 envRevoked pkT docObjT proofObjT purposeOk
      (strL "vm:key-1") _ (by decide) (by decide) rfl (by decide),
    C7_verification_method_failures.2.1 envT [] (Or.inl (by decide)),
    C7_verification_method_failures.2.2 envNoVM proofObjT (strL "vm:key-1")
      (by decide) (by decide) rfl⟩

/-- C8: an invalid purpose-validation result forces the failure envelope
carrying the purpose cause even though the cryptographic result had been
computed, and a `verified: true` outcome requires the verification method to
resolve, the purpose check to pass, and the cryptographic primitive itself to
report `verified: true`. -/
theorem C8_purpose_gating :
    (∀ (env : Env) (pk : List Nat) (document proofObj : JObj) (purpose : Purpose)
        (vm : JObj) (pb : List Char),
      getVerificationMethod env proofObj = Except.ok vm →
      getStr proofK proofObj = some pb →
      (purpose proofObj document vm).valid = false →
      verifyProof env pk document proofObj purpose
        = { verified := false, error := some (purpose proofObj document vm).error })
    ∧ (∀ (env : Env) (pk : List Nat) (document proofObj : JObj) (purpose : Purpose),
      (verifyProof env pk document proofObj purpose).verified = true →
      ∃ vm pb, getVerificationMethod env proofObj = Except.ok vm
        ∧ getStr proofK proofObj = some pb
        ∧ (purpose proofObj document vm).valid = true
        ∧ (env.blsVerifyProof (verifyRequest env pk document proofObj pb)).verified
            = true) := by
  constructor
  · intro env pk document proofObj purpose vm pb hvm hpb hval
    have hb : verifyProofBody env pk document proofObj purpose
        = Except.error (purpose proofObj document vm).error := by
      simp only [verifyProofBody, hvm, hpb]
      rw [if_neg (by simp [hval])]
    unfold verifyProof
    rw [hb]
  · intro env pk document proofObj purpose h
    unfold verifyProof at h
    cases hb : verifyProofBody env pk document proofObj purpose with
    | error e => rw [hb] at h; simp at h
    | ok r =>
      rw [hb] at h
      unfold verifyProofBody at hb
      split at hb
      · cases hb
      · rename_i vm hvm
        split at hb
        · cases hb
        · rename_i pb hpb
          split at hb
          · rename_i hval
            injection hb with hb
            refine ⟨vm, pb, hvm, hpb, hval, ?_⟩
            rw [hb]
            exact h
          · cases hb

/-- Witness for C8: an invalid purpose forces the failure envelope even though
this environment's primitive reports success, and a concrete `verified: true`
outcome exhibits all three passing checks. -/
theorem C8_purpose_gating_witness :
    verifyProof envT pkT docObjT
        (derivedProofFields envT pkT docObjT proofObjT revealTemplateT
          (some (strL "n1")) (strL "c2ln")) purposeBad
      = { verified := false, error := some Err.purposeInvalid }
    ∧ ∃ vm pb,
        getVerificationMethod envT
            (derivedProofFields envT pkT docObjT proofObjT revealTemplateT
              (some (strL "n1")) (strL "c2ln")) = Except.ok vm
        ∧ getStr proofK (derivedProofFields envT pkT docObjT proofObjT revealTemplateT
            (some (strL "n1")) (strL "c2ln")) = some pb
        ∧ (purposeOk (derivedProofFields envT pkT docObjT proofObjT revealTemplateT
            (some (strL "n1")) (strL "c2ln")) docObjT vm).valid = true
        ∧ (envT.blsVerifyProof (verifyRequest envT pkT docObjT
            (derivedProofFields envT pkT docObjT proofObjT revealTemplateT
              (some (strL "n1")) (strL "c2ln")) pb)).verified = true :=
  ⟨C8_purpose_gating.1 envT pkT docObjT _ purposeBad vmObjT (strL "QjY0")
      rfl (by decide) rfl,
    C8_purpose_gating.2 envT pkT docObjT _ purposeOk rfl⟩

theorem getD_append_right (l1 l2 : List (List Char)) (i : Nat) :
    (l1 ++ l2).getD (l1.length + i) [] = l2.getD i [] := by
  rw [List.getD_eq_getElem?_getD, List.getD_eq_getElem?_getD,
    List.getElem?_append_right (by omega)]
  have hidx : l1.length + i - l1.length = i := by omega
  rw [hidx]

theorem getD_map_transform (ds : List (List Char)) (i : Nat) (h : i < ds.length) :
    (ds.map transformStatement).getD i [] = transformStatement (ds.getD i []) := by
  rw [List.getD_eq_getElem?_getD, List.getD_eq_getElem?_getD, List.getElem?_map,
    List.getElem?_eq_getElem h]
  rfl

theorem getD_mem (l : List (List Char)) (i : Nat) (h : i < l.length) :
    l.getD i [] ∈ l := by
  rw [List.getD_eq_getElem?_getD, List.getElem?_eq_getElem h, Option.getD_some]
  exact List.getElem_mem h

/-- The document-side reveal indices select exactly the inverse-transformed
revealed statements out of the combined message list, whenever every revealed
statement occurs in the transformed document statements and the document
statements carry no pre-wrapped subject. -/
theorem selectRevealed_docIndicies (env : Env) (document proofIn revealDocument : JObj)
    (hsub : ∀ s ∈ revealDocumentStatements env document revealDocument,
      s ∈ transformedInputDocumentStatements env document)
    (hwf : ∀ s ∈ documentStatements env document,
      urnMark.isPrefixOf (firstTok s) = false) :
    selectRevealed (documentRevealIndicies env document proofIn revealDocument)
        (allInputStatements env document proofIn)
      = (revealDocumentStatements env document revealDocument).map
          untransformStatement := by
  unfold selectRevealed documentRevealIndicies allInputStatements
  rw [List.map_map]
  apply List.map_congr_left
  intro key hkey
  have hk : key ∈ transformedInputDocumentStatements env document := hsub key hkey
  obtain ⟨h0, hlt, hgd⟩ := jsIndexOf_spec hk
  have hlen : (transformedInputDocumentStatements env document).length
      = (documentStatements env document).length := List.length_map _ _
  simp only [Function.comp]
  have htn : (jsIndexOf (transformedInputDocumentStatements env document) key
        + (numberOfProofStatements env proofIn : Int)).toNat
      = numberOfProofStatements env proofIn
        + (jsIndexOf (transformedInputDocumentStatements env document) key).toNat := by
    omega
  rw [htn]
  generalize hjn : (jsIndexOf (transformedInputDocumentStatements env document) key).toNat
      = jn at hlt hgd ⊢
  have hjd : jn < (documentStatements env document).length := by omega
  have hnps : numberOfProofStatements env proofIn
      = (proofStatements env proofIn).length := rfl
  rw [hnps, getD_append_right]
  have hkeyval : key
      = transformStatement ((documentStatements env document).getD jn []) := by
    rw [← hgd]
    unfold transformedInputDocumentStatements
    exact getD_map_transform (documentStatements env document) jn hjd
  rw [hkeyval,
    untransform_transform (hwf _ (getD_mem (documentStatements env document) jn hjd))]

/-- C2: deriving a proof and verifying the derived output with the same key
yields `verified: true`, under the external-collaborator contracts of §6: the
framed reveal canonicalizes to a sublist of the (stabilized) document
statements, canonical document statements carry no pre-wrapped subject, the
verify path recomputes the same proof and revealed-document statements as the
derive path (§4.4 steps 1–2), base64 decoding inverts encoding on the emitted
proof bytes, the BBS+ primitive pair is complete, the verification method of
the derived proof resolves, and the purpose validator accepts. -/
theorem C2_derive_verify_roundtrip (env : Env) (pk : List Nat)
    (document proofIn revealDocument : JObj) (nonceIn : Option (List Char))
    (purpose : Purpose) (out : JObj)
    (hok : deriveProof env pk document proofIn revealDocument nonceIn = Except.ok out)
    (hsub : ∀ s ∈ revealDocumentStatements env document revealDocument,
      s ∈ transformedInputDocumentStatements env document)
    (hwf : ∀ s ∈ documentStatements env document,
      urnMark.isPrefixOf (firstTok s) = false)
    (hproofSide : ∀ sigB64, createVerifyProofData env
        (derivedProofFields env pk document proofIn revealDocument nonceIn sigB64)
      = proofStatements env proofIn)
    (hdocSide : createVerifyProofData env
        (deleteKey proofK (revealDocumentResult env document revealDocument))
      = revealDocumentStatements env document revealDocument)
    (hcodec : ∀ sigB64, env.base64decode (env.base64encode
        (outputProofBytes env pk document proofIn revealDocument nonceIn sigB64))
      = outputProofBytes env pk document proofIn revealDocument nonceIn sigB64)
    (hcomplete : ∀ req : BlsCreateProofRequest,
      env.blsVerifyProof
          { proof := env.blsCreateProof req
            publicKey := req.publicKey
            messageCount := some (req.messages.length : Int)
            messages := selectRevealed req.revealed req.messages
            nonce := some req.nonce
            revealed := some req.revealed }
        = { verified := true, error := none })
    (hvm : ∀ sigB64, ∃ vm, getVerificationMethod env
        (derivedProofFields env pk document proofIn revealDocument nonceIn sigB64)
      = Except.ok vm)
    (hpurpose : ∀ a b c, (purpose a b c).valid = true) :
    ∃ p, getObjField proofK out = some p
      ∧ (verifyProof env pk (deleteKey proofK out) p purpose).verified = true := by
  obtain ⟨sigB64, hs, rfl⟩ := deriveProof_ok_inv hok
  refine ⟨derivedProofFields env pk document proofIn revealDocument nonceIn sigB64,
    getObjField_proof_output env pk document proofIn revealDocument nonceIn sigB64, ?_⟩
  obtain ⟨vm, hvmOk⟩ := hvm sigB64
  have hmessages : statementsToVerify env
        (deleteKey proofK (deriveOutput env pk document proofIn revealDocument nonceIn sigB64))
        (derivedProofFields env pk document proofIn revealDocument nonceIn sigB64)
      = selectRevealed (revealIndicies env document proofIn revealDocument)
          (allInputStatements env document proofIn) := by
    unfold statementsToVerify
    rw [hproofSide sigB64, deleteKey_proof_output, hdocSide]
    unfold revealIndicies
    rw [selectRevealed_append,
      selectRevealed_docIndicies env document proofIn revealDocument hsub hwf]
    congr 1
    exact (selectRevealed_range (proofStatements env proofIn)
      (documentStatements env document)).symm
  have hreq : verifyRequest env pk
        (deleteKey proofK (deriveOutput env pk document proofIn revealDocument nonceIn sigB64))
        (derivedProofFields env pk document proofIn revealDocument nonceIn sigB64)
        (env.base64encode (outputProofBytes env pk document proofIn revealDocument nonceIn sigB64))
      = { proof := env.blsCreateProof
            { signature := env.base64decode sigB64
              publicKey := pk
              messages := allInputStatements env document proofIn
              nonce := resolvedNonce env nonceIn
              revealed := revealIndicies env document proofIn revealDocument }
          publicKey := pk
          messageCount := some ((allInputStatements env document proofIn).length : Int)
          messages := selectRevealed (revealIndicies env document proofIn revealDocument)
              (allInputStatements env document proofIn)
          nonce := some (resolvedNonce env nonceIn)
          revealed := some (revealIndicies env document proofIn revealDocument) } := by
    unfold verifyRequest
    rw [hcodec sigB64, getNum_total_derived, getStr_nonce_derived, getArr_reveal_derived,
      hmessages]
    rfl
  have hb : verifyProofBody env pk
        (deleteKey proofK (deriveOutput env pk document proofIn revealDocument nonceIn sigB64))
        (derivedProofFields env pk document proofIn revealDocument nonceIn sigB64) purpose
      = Except.ok { verified := true, error := none } := by
    simp only [verifyProofBody, hvmOk, getStr_proof_derived]
    rw [if_pos (hpurpose _ _ _), hreq, hcomplete]
  unfold verifyProof
  rw [hb]

/-- Witness for C2: a concrete derive-then-verify round trip over `envT`,
covering a blank-node statement and an ordinary statement, with one of two
document statements revealed. -/
theorem C2_derive_verify_roundtrip_witness :
    ∃ p, getObjField proofK (deriveOutput envT pkT docObjT proofObjT revealTemplateT
        (some (strL "n1")) (strL "c2ln")) = some p
      ∧ (verifyProof envT pkT
          (deleteKey proofK (deriveOutput envT pkT docObjT proofObjT revealTemplateT
            (some (strL "n1")) (strL "c2ln"))) p purposeOk).verified = true :=
  C2_derive_verify_roundtrip envT pkT docObjT proofObjT revealTemplateT
    (some (strL "n1")) purposeOk _ rfl (by decide) (by decide)
    (fun _ => rfl) rfl (fun _ => rfl) (fun _ => rfl)
    (fun _ => ⟨vmObjT, rfl⟩) (fun _ _ _ => rfl)
